import Mathlib

/-!
Shallow embedding of the synchronization engine of `slack-emoji-exporter`
(`src/slack.rs` and `src/actions.rs`).

The stateful Rust code is modelled as pure Lean functions over explicit inputs:
the per-attempt HTTP responses of the rate-limited endpoints are a function
`Nat → AttemptResponse` (the response to the i-th request attempt), the bytes
returned by `fs::read` on the i-th attempt are a function
`Nat → Except String (List Nat)`, the chunks of a download body are a list of
`Except`-wrapped byte lists, and the archive scan is a list of `Except`-wrapped
entries.  Each operation returns its outcome together with a trace of the
observable effects it performed (requests sent, server-dictated backoff waits,
the fixed 1-second cool-down sleep, file reads), so that claims about "how many
waits occurred" or "was a fifth request sent" are statements about the trace.
-/

set_option maxHeartbeats 1000000

namespace SlackEmojiExporter

/-- `MinimalSlackEndpointResponse` from `src/slack.rs` lines 25-29: the parsed
JSON body of the `emoji.add` endpoint, carrying an optional `error` string and
an `ok` boolean. -/
structure MinimalSlackEndpointResponse where
  error : Option String
  ok : Bool
  deriving DecidableEq

/-- The observable response to one request attempt of the retry loop in
`SlackClient::upload` / `SlackClient::add_alias` (`src/slack.rs`).
`throttled w` models a response whose `retry-after` header is present and
parses to `w` seconds; `body r` models a response with no `retry-after`
header whose JSON body parses to `r`; `sendError m` models a failure of
`send().await?` or of `response.json().await?`, both of which propagate out
of the whole call via `?`.  (A malformed `retry-after` header value is not
modelled; header values are taken as already-parsed integers.) -/
inductive AttemptResponse where
  | throttled (waitSeconds : Nat)
  | body (resp : MinimalSlackEndpointResponse)
  | sendError (msg : String)
  deriving DecidableEq

/-- The multipart form built on each iteration of the `upload` retry loop
(`src/slack.rs` lines 73-83): fields `mode=data`, `name`, `image`
(bytes read from the archive file plus a file name), `token`. -/
structure UploadForm where
  mode : String
  name : String
  imageBytes : List Nat
  imageFileName : String
  token : String
  deriving DecidableEq

/-- The multipart form built on each iteration of the `add_alias` retry loop
(`src/slack.rs` lines 143-149): fields `mode=alias`, `name`, `alias_for`,
`token`. -/
structure AliasForm where
  mode : String
  name : String
  aliasFor : String
  token : String
  deriving DecidableEq

/-- One observable effect of a rate-limited call. `fileRead i b` is the
`fs::read` of the archive file performed while building attempt `i`'s form;
`uploadSend i f` / `aliasSend i f` is the POST of attempt `i` carrying the
multipart form `f`; `backoffWait s` is the server-dictated
`sleep(Duration::from_secs(s))` taken after a throttled attempt;
`cooldownSleep` is the fixed `sleep(Duration::from_secs(1))` taken after the
retry loop resolves. -/
inductive Event where
  | fileRead (attempt : Nat) (bytes : List Nat)
  | uploadSend (attempt : Nat) (form : UploadForm)
  | aliasSend (attempt : Nat) (form : AliasForm)
  | backoffWait (seconds : Nat)
  | cooldownSleep
  deriving DecidableEq

/-- How the retry `loop` of `upload` / `add_alias` terminates:
`parsed r` is `break Ok(response.json()...)` with body `r`;
`exhausted msg` is the `break Err(...)` taken when a throttled response
arrives with `try_count == 3`; `propagated msg` is an early return of the
whole function through a `?` operator inside the loop. -/
inductive LoopExit where
  | parsed (r : MinimalSlackEndpointResponse)
  | exhausted (msg : String)
  | propagated (msg : String)
  deriving DecidableEq

/-- The outcome of a whole rate-limited call, following the spec's taxonomy:
`success` is `Ok(())`; `operationRejected msg` is the `Err` built from a body
whose `error` field is present; `retryExhausted msg` is the `Err` built after
a throttled response at `try_count == 3`; `ioError msg` is an error
propagated by `?` from inside the loop. -/
inductive CallOutcome where
  | success
  | operationRejected (msg : String)
  | retryExhausted (msg : String)
  | ioError (msg : String)
  deriving DecidableEq

/-- The retry `loop` of `SlackClient::upload` (`src/slack.rs` lines 70-113).
Each iteration re-reads the archive file (`fs::read` inside the form builder),
rebuilds the multipart form, sends it, and then inspects the `retry-after`
header: if present and `try_count == 3` it breaks with the exhausted error;
if present otherwise it increments `try_count`, waits the server-dictated
seconds and loops; if absent it breaks with the parsed body.  `fuel` bounds
the recursion; from the entry point (`fuel = 4`, `try_count = 0`) it is never
exhausted, because `try_count` reaches 3 after three recursive calls and the
fourth iteration always breaks. -/
def uploadGo (token name filename : String)
    (readFile : Nat → Except String (List Nat))
    (responses : Nat → AttemptResponse) :
    Nat → Nat → Nat → Option (LoopExit × List Event)
  | 0, _, _ => none
  | fuel + 1, attempt, tryCount =>
    match readFile attempt with
    | Except.error e => some (LoopExit.propagated e, [])
    | Except.ok bytes =>
      let form : UploadForm :=
        { mode := "data", name := name, imageBytes := bytes,
          imageFileName := filename, token := token }
      let sent : List Event := [Event.fileRead attempt bytes, Event.uploadSend attempt form]
      match responses attempt with
      | AttemptResponse.sendError msg => some (LoopExit.propagated msg, sent)
      | AttemptResponse.throttled w =>
        if tryCount == 3 then
          some (LoopExit.exhausted
            ("Could not successfully upload emoji within 3 tries, skipping: " ++ name), sent)
        else
          match uploadGo token name filename readFile responses fuel
              (attempt + 1) (tryCount + 1) with
          | none => none
          | some (res, evs) => some (res, sent ++ Event.backoffWait w :: evs)
      | AttemptResponse.body r => some (LoopExit.parsed r, sent)

/-- `SlackClient::upload` (`src/slack.rs` lines 65-133): run the retry loop
starting at `try_count = 0`; after the loop resolves (both the `Ok` and the
exhausted-`Err` break), sleep the fixed 1 second, then match on the result:
a body with an `error` field becomes the rejection error, a body without one
is success.  A `?` propagation inside the loop skips the cool-down sleep. -/
def upload (token name filename : String)
    (readFile : Nat → Except String (List Nat))
    (responses : Nat → AttemptResponse) : Option (CallOutcome × List Event) :=
  match uploadGo token name filename readFile responses 4 0 0 with
  | none => none
  | some (LoopExit.propagated msg, evs) => some (CallOutcome.ioError msg, evs)
  | some (LoopExit.exhausted msg, evs) =>
      some (CallOutcome.retryExhausted msg, evs ++ [Event.cooldownSleep])
  | some (LoopExit.parsed r, evs) =>
      match r.error with
      | some m =>
          some (CallOutcome.operationRejected
              ("Failed to upload emoji " ++ name ++ " for reason: " ++ m),
            evs ++ [Event.cooldownSleep])
      | none => some (CallOutcome.success, evs ++ [Event.cooldownSleep])

/-- The retry `loop` of `SlackClient::add_alias` (`src/slack.rs` lines
140-180): identical control flow to the upload loop, but the form is built
from the two strings `name` and `alias_for` (no file read). -/
def addAliasGo (token name aliasFor : String)
    (responses : Nat → AttemptResponse) :
    Nat → Nat → Nat → Option (LoopExit × List Event)
  | 0, _, _ => none
  | fuel + 1, attempt, tryCount =>
    let form : AliasForm :=
      { mode := "alias", name := name, aliasFor := aliasFor, token := token }
    let sent : List Event := [Event.aliasSend attempt form]
    match responses attempt with
    | AttemptResponse.sendError msg => some (LoopExit.propagated msg, sent)
    | AttemptResponse.throttled w =>
      if tryCount == 3 then
        some (LoopExit.exhausted
          ("Could not successfully add alias '" ++ name ++ "' for '" ++ aliasFor ++
            "' within 3 tries, skipping"), sent)
      else
        match addAliasGo token name aliasFor responses fuel (attempt + 1) (tryCount + 1) with
        | none => none
        | some (res, evs) => some (res, sent ++ Event.backoffWait w :: evs)
    | AttemptResponse.body r => some (LoopExit.parsed r, sent)

/-- `SlackClient::add_alias` (`src/slack.rs` lines 135-206): run the retry
loop, sleep the fixed 1 second after it resolves, then classify the parsed
body by the presence of its `error` field, exactly as `upload` does. -/
def add_alias (token name aliasFor : String)
    (responses : Nat → AttemptResponse) : Option (CallOutcome × List Event) :=
  match addAliasGo token name aliasFor responses 4 0 0 with
  | none => none
  | some (LoopExit.propagated msg, evs) => some (CallOutcome.ioError msg, evs)
  | some (LoopExit.exhausted msg, evs) =>
      some (CallOutcome.retryExhausted msg, evs ++ [Event.cooldownSleep])
  | some (LoopExit.parsed r, evs) =>
      match r.error with
      | some m =>
          some (CallOutcome.operationRejected
              ("Failed to add alias '" ++ name ++ "' for '" ++ aliasFor ++
                "' for reason: " ++ m),
            evs ++ [Event.cooldownSleep])
      | none => some (CallOutcome.success, evs ++ [Event.cooldownSleep])

/-- The destination file of `SlackClient::download`: the bytes written so far
and whether `flush` has been called.  `File::create` truncates, so the file
starts empty. -/
structure FileState where
  contents : List Nat
  flushed : Bool
  deriving DecidableEq

/-- The `while let Some(Ok(chunk))` copy loop of `SlackClient::download`
(`src/slack.rs` lines 57-59): each `Ok` chunk is appended to the file; the
loop ends at the end of the stream, or silently at the first chunk that is an
`Err` (the `while let` pattern fails to match and the loop exits). -/
def downloadLoop : FileState → List (Except String (List Nat)) → FileState
  | file, [] => file
  | file, Except.ok chunk :: rest =>
      downloadLoop { file with contents := file.contents ++ chunk } rest
  | file, Except.error _ :: _ => file

/-- `SlackClient::download` (`src/slack.rs` lines 44-63): create (truncate)
the file, copy the byte stream chunk by chunk, then `flush` and return
success.  (`File::create`, `write_all` and `flush` failures propagate via `?`
and are not modelled; no claim concerns them.) -/
def download (chunks : List (Except String (List Nat))) : FileState :=
  let file := downloadLoop { contents := [], flushed := false } chunks
  { file with flushed := true }

/-- Formalization of the spec's phrase "the complete byte content of the
remote response stream": the concatenation of the bytes of every chunk the
stream carries, including chunks positioned after a failed chunk item. -/
def allChunkBytes : List (Except String (List Nat)) → List Nat
  | [] => []
  | Except.ok chunk :: rest => chunk ++ allChunkBytes rest
  | Except.error _ :: rest => allChunkBytes rest

/-- The bytes the download copy loop actually writes: the concatenation of
the chunks strictly before the first failed chunk item. -/
def writtenBytes : List (Except String (List Nat)) → List Nat
  | [] => []
  | Except.ok chunk :: rest => chunk ++ writtenBytes rest
  | Except.error _ :: _ => []

/-- An emoji record yielded by the paginator (`crate::emoji::Emoji` as used by
`actions::export`): a name and the source URL of its image. -/
structure Emoji where
  name : String
  url : String
  deriving DecidableEq

/-- One observable effect of the export loop in `actions::export`:
`downloaded n` is a completed `download_to_directory` for the record named
`n`; `fetchErrorReported m` is the `eprintln!` issued for an `Err` item of
the paginator stream. -/
inductive ExportEvent where
  | downloaded (name : String)
  | fetchErrorReported (msg : String)
  deriving DecidableEq

/-- The `while let Some(emoji_result)` loop of `actions::export`
(`src/actions.rs` lines 24-33), parameterized by the paginator's items and by
the result of `EmojiFile::download_to_directory` for each record (that
function lives outside the embedded files; only its `Result` matters here).
An `Ok` record is downloaded; if the download fails the error propagates via
`?` and the loop stops with that error.  An `Err` item is reported and the
loop continues. -/
def exportLoop (downloadResult : Emoji → Except String Unit) :
    List (Except String Emoji) → List ExportEvent × Except String Unit
  | [] => ([], Except.ok ())
  | Except.ok emoji :: rest =>
    match downloadResult emoji with
    | Except.ok _ =>
      let r := exportLoop downloadResult rest
      (ExportEvent.downloaded emoji.name :: r.1, r.2)
    | Except.error e => ([], Except.error e)
  | Except.error e :: rest =>
    let r := exportLoop downloadResult rest
    (ExportEvent.fetchErrorReported e :: r.1, r.2)

/-- An archive entry yielded by `EmojiDirectory::stream_emoji_files` as
consumed by `actions::import`: only the recovered emoji name
(`emoji_file.emoji.name`) is inspected there. -/
structure EmojiFileEntry where
  name : String
  deriving DecidableEq

/-- One observable effect of the import loop in `actions::import`:
`conflictReported n` is the `eprintln!` issued for a reserved name;
`uploadCalled n` would be a call of the rate-limited upload for entry `n`
(the loop body of the source contains no such call). -/
inductive ImportEvent where
  | conflictReported (name : String)
  | uploadCalled (name : String)
  deriving DecidableEq

/-- The `while let Some(Ok(emoji_file))` loop of `actions::import`
(`src/actions.rs` lines 56-64), parameterized by the reserved-name membership
test (`EMOJI_STANDARD_SHORTCODES.contains`) and the scanned items.  A
reserved entry is reported and skipped; a non-reserved entry falls through
the `if` with no further statement — the source performs no upload call.  An
`Err` item fails the `while let` pattern, so the loop stops there. -/
def importLoop (reserved : String → Bool) :
    List (Except String EmojiFileEntry) → List ImportEvent
  | [] => []
  | Except.ok ef :: rest =>
    if reserved ef.name then
      ImportEvent.conflictReported ef.name :: importLoop reserved rest
    else
      importLoop reserved rest
  | Except.error _ :: _ => []

/-- How a whole `actions::import` run ends: `panicked msg` models the Rust
`panic!` (a process-terminating crash, not a returned error value);
`completed evs` is the normal return with the loop's effects. -/
inductive ImportResult where
  | panicked (msg : String)
  | completed (events : List ImportEvent)
  deriving DecidableEq

/-- `actions::import` (`src/actions.rs` lines 38-67), parameterized by the
result of `EmojiDirectory::exists` and the scanned items: `Ok(false)` and
`Err(e)` both hit a `panic!` with the formatted message; only `Ok(true)`
proceeds to the scan loop. -/
def importRun (reserved : String → Bool) (targetDirectory : String)
    (dirExists : Except String Bool)
    (entries : List (Except String EmojiFileEntry)) : ImportResult :=
  match dirExists with
  | Except.ok false =>
      ImportResult.panicked ("\"" ++ targetDirectory ++ "\" is not a directory")
  | Except.error e =>
      ImportResult.panicked
        ("Failed to check existence of directory \"" ++ targetDirectory ++ "\": " ++ e)
  | Except.ok true => ImportResult.completed (importLoop reserved entries)

/-- Count of cool-down sleeps in a trace. -/
def countCooldown (evs : List Event) : Nat :=
  evs.countP fun e => match e with
    | Event.cooldownSleep => true
    | _ => false

/-- Count of server-dictated backoff waits in a trace. -/
def countBackoffWaits (evs : List Event) : Nat :=
  evs.countP fun e => match e with
    | Event.backoffWait _ => true
    | _ => false

/-- Count of archive-file reads in a trace. -/
def countFileReads (evs : List Event) : Nat :=
  evs.countP fun e => match e with
    | Event.fileRead _ _ => true
    | _ => false

/-- Count of upload request sends in a trace. -/
def countUploadSends (evs : List Event) : Nat :=
  evs.countP fun e => match e with
    | Event.uploadSend _ _ => true
    | _ => false

/-- The attempt indices of the requests sent, in order. -/
def sendAttempts (evs : List Event) : List Nat :=
  evs.filterMap fun e => match e with
    | Event.uploadSend i _ => some i
    | Event.aliasSend i _ => some i
    | _ => none

/-- The server-dictated wait durations taken, in order. -/
def backoffSeconds (evs : List Event) : List Nat :=
  evs.filterMap fun e => match e with
    | Event.backoffWait s => some s
    | _ => none

/-- Count of upload calls made by the import loop. -/
def countUploadEvents (evs : List ImportEvent) : Nat :=
  evs.countP fun ev => match ev with
    | ImportEvent.uploadCalled _ => true
    | _ => false

/-- How many cool-down sleeps each outcome's path performs in the source:
one on the success, rejection and exhausted paths (the sleep sits after the
loop, before the result match), none on a `?` propagation. -/
def expectedCooldowns : CallOutcome → Nat
  | CallOutcome.ioError _ => 0
  | _ => 1

/-- Whether a call outcome is the retry-exhausted failure. -/
def CallOutcome.isRetryExhausted : CallOutcome → Bool
  | CallOutcome.retryExhausted _ => true
  | _ => false

/-- Replace the `ok` flag of a parsed body, leaving every other part of the
attempt response (throttle signal, error string, send failure) unchanged. -/
def AttemptResponse.withOk (b : Bool) : AttemptResponse → AttemptResponse
  | AttemptResponse.body r => AttemptResponse.body { r with ok := b }
  | x => x

/-- Replace the `ok` flag of the body carried by a `parsed` loop exit. -/
def LoopExit.withOk (b : Bool) : LoopExit → LoopExit
  | LoopExit.parsed r => LoopExit.parsed { r with ok := b }
  | x => x

/-- The import loop of the source contains no upload call, so no trace it
produces ever contains an upload event. -/
theorem importLoop_no_upload (reserved : String → Bool) :
    ∀ entries, countUploadEvents (importLoop reserved entries) = 0 := by
  intro entries
  induction entries with
  | nil => rfl
  | cons x rest ih =>
    cases x with
    | ok ef =>
      cases hcase : reserved ef.name with
      | false => simpa [importLoop, hcase] using ih
      | true => simpa [importLoop, hcase, countUploadEvents, List.countP_cons] using ih
    | error e => rfl

/-- A reserved entry that the scan loop actually reaches (all earlier items
scanned successfully) gets a conflict report in the trace. -/
theorem importLoop_conflict_mem (reserved : String → Bool) (ef : EmojiFileEntry)
    (hres : reserved ef.name = true) :
    ∀ (entries : List (Except String EmojiFileEntry)) (k : Nat),
      entries[k]? = some (Except.ok ef) →
      (∀ j, j < k → ∃ e, entries[j]? = some (Except.ok e)) →
      ImportEvent.conflictReported ef.name ∈ importLoop reserved entries := by
  intro entries
  induction entries with
  | nil => intro k hk _; simp at hk
  | cons x rest ih =>
    intro k hk hpre
    cases k with
    | zero =>
      simp at hk
      subst hk
      simp [importLoop, hres]
    | succ k =>
      obtain ⟨e0, he0⟩ := hpre 0 (Nat.succ_pos k)
      simp at he0
      subst he0
      have hk' : rest[k]? = some (Except.ok ef) := by simpa using hk
      have hpre' : ∀ j, j < k → ∃ e, rest[j]? = some (Except.ok e) := by
        intro j hj
        obtain ⟨e, he⟩ := hpre (j + 1) (Nat.succ_lt_succ hj)
        exact ⟨e, by simpa using he⟩
      have hmem := ih k hk' hpre'
      cases hcase : reserved e0.name with
      | false => simpa [importLoop, hcase] using hmem
      | true =>
        simp [importLoop, hcase]
        exact Or.inr hmem

/-- If the downloads of all records in `pre` succeed and the download of `em`
fails, the export loop stops at `em` with the propagated error: the events
are exactly those of `pre` and nothing of `rest` is examined. -/
theorem exportLoop_append_abort (downloadResult : Emoji → Except String Unit)
    (em : Emoji) (msg : String) (hem : downloadResult em = Except.error msg) :
    ∀ (pre rest : List (Except String Emoji)),
      (∀ e, Except.ok e ∈ pre → downloadResult e = Except.ok ()) →
      exportLoop downloadResult (pre ++ Except.ok em :: rest) =
        ((exportLoop downloadResult pre).1, Except.error msg) := by
  intro pre
  induction pre with
  | nil => intro rest _; simp [exportLoop, hem]
  | cons x pre ih =>
    intro rest hpre
    cases x with
    | ok e =>
      have hde : downloadResult e = Except.ok () := hpre e (List.mem_cons_self _ _)
      have ih' := ih rest (fun e' he' => hpre e' (List.mem_cons_of_mem _ he'))
      simp [exportLoop, hde, ih']
    | error e2 =>
      have ih' := ih rest (fun e' he' => hpre e' (List.mem_cons_of_mem _ he'))
      simp [exportLoop, ih']

/-- The download copy loop appends exactly the bytes of the chunks before
the first failed chunk and leaves the flush flag alone. -/
theorem downloadLoop_contents :
    ∀ (chunks : List (Except String (List Nat))) (file : FileState),
      downloadLoop file chunks =
        { contents := file.contents ++ writtenBytes chunks, flushed := file.flushed } := by
  intro chunks
  induction chunks with
  | nil => intro file; simp [downloadLoop, writtenBytes]
  | cons x rest ih =>
    intro file
    cases x with
    | ok chunk => simp [downloadLoop, writtenBytes, ih, List.append_assoc]
    | error e => simp [downloadLoop, writtenBytes]

/-- C1 counterexample: with two records yielded by the paginator and a
download that fails only for the first one, the export loop returns the
propagated error with an empty trace — the second record is never downloaded
and no per-record report is emitted, so a single download failure does abort
the remaining export. -/
theorem export_download_failure_counterexample :
    exportLoop
        (fun em => if em.name = "alpha" then Except.error "download failed" else Except.ok ())
        [Except.ok { name := "alpha", url := "u1" }, Except.ok { name := "beta", url := "u2" }] =
      ([], Except.error "download failed") ∧
    ((exportLoop
        (fun em => if em.name = "alpha" then Except.error "download failed" else Except.ok ())
        [Except.ok { name := "alpha", url := "u1" },
          Except.ok { name := "beta", url := "u2" }]).1.contains
      (ExportEvent.downloaded "beta")) = false := by
  constructor
  · rfl
  · rfl

/-- C1 (amended): in the export flow, an `Err` item of the paginator stream
is reported and the loop continues; but a failure to download or write one
record's image propagates through the `?` operator and aborts the export at
that record — the events are exactly those of the successfully processed
earlier items, and no later item is examined. -/
theorem export_download_error_aborts
    (downloadResult : Emoji → Except String Unit)
    (pre rest : List (Except String Emoji)) (em : Emoji) (msg m : String)
    (hpre : ∀ e, Except.ok e ∈ pre → downloadResult e = Except.ok ())
    (hem : downloadResult em = Except.error msg) :
    exportLoop downloadResult (pre ++ Except.ok em :: rest) =
      ((exportLoop downloadResult pre).1, Except.error msg) ∧
    exportLoop downloadResult (Except.error m :: rest) =
      (ExportEvent.fetchErrorReported m :: (exportLoop downloadResult rest).1,
        (exportLoop downloadResult rest).2) :=
  ⟨exportLoop_append_abort downloadResult em msg hem pre rest hpre, rfl⟩

/-- Witness for C1 (amended) at a concrete input: one fetch-error item, then
a record whose download fails. -/
theorem export_download_error_aborts_witness :
    exportLoop
        (fun em => if em.name = "alpha" then Except.error "download failed" else Except.ok ())
        ([Except.error "page"] ++ Except.ok { name := "alpha", url := "u1" } :: []) =
      ((exportLoop
          (fun em => if em.name = "alpha" then Except.error "download failed" else Except.ok ())
          [Except.error "page"]).1, Except.error "download failed") ∧
    exportLoop
        (fun em => if em.name = "alpha" then Except.error "download failed" else Except.ok ())
        (Except.error "page" :: []) =
      (ExportEvent.fetchErrorReported "page" ::
          (exportLoop
            (fun em => if em.name = "alpha" then Except.error "download failed" else Except.ok ())
            []).1,
        (exportLoop
          (fun em => if em.name = "alpha" then Except.error "download failed" else Except.ok ())
          []).2) :=
  export_download_error_aborts
    (fun em => if em.name = "alpha" then Except.error "download failed" else Except.ok ())
    [Except.error "page"] [] { name := "alpha", url := "u1" } "download failed" "page"
    (fun e he => by simp at he) rfl

/-- C2: the import loop of the source never calls the rate-limited upload —
for any reserved set and any scanned items, its trace contains no upload
event; in particular the non-reserved entry `my_custom_logo` produces no
upload call (and no event at all). -/
theorem import_makes_no_upload_calls :
    (∀ (reserved : String → Bool) (entries : List (Except String EmojiFileEntry)),
        countUploadEvents (importLoop reserved entries) = 0) ∧
    importLoop (fun n => n == "seal" || n == "female_elf")
        [Except.ok { name := "my_custom_logo" }] = [] :=
  ⟨fun reserved => importLoop_no_upload reserved, rfl⟩

/-- C3: for the rate-limited upload and add-alias calls, three throttled
responses followed by a success give exactly 3 server-dictated backoff waits
(of the server-dictated durations, in order) and a successful call with
exactly 4 requests (attempts 0-3); four consecutive throttled responses give
the retry-exhausted failure after exactly 4 requests and 3 backoff waits,
with no fifth request sent (the sent attempts are exactly 0-3 even though
the response source would throttle every further attempt). -/
theorem rate_limited_retry_bounds (token name filename aliasFor : String)
    (bs : Nat → List Nat) (ws : Nat → Nat) (okFlag : Bool) :
    (∃ evs, upload token name filename (fun i => Except.ok (bs i))
        (fun i => if i < 3 then AttemptResponse.throttled (ws i)
                  else AttemptResponse.body { error := none, ok := okFlag }) =
        some (CallOutcome.success, evs) ∧
      countBackoffWaits evs = 3 ∧ sendAttempts evs = [0, 1, 2, 3] ∧
      backoffSeconds evs = [ws 0, ws 1, ws 2]) ∧
    (∃ evs, add_alias token name aliasFor
        (fun i => if i < 3 then AttemptResponse.throttled (ws i)
                  else AttemptResponse.body { error := none, ok := okFlag }) =
        some (CallOutcome.success, evs) ∧
      countBackoffWaits evs = 3 ∧ sendAttempts evs = [0, 1, 2, 3] ∧
      backoffSeconds evs = [ws 0, ws 1, ws 2]) ∧
    (∃ msg evs, upload token name filename (fun i => Except.ok (bs i))
        (fun i => AttemptResponse.throttled (ws i)) =
        some (CallOutcome.retryExhausted msg, evs) ∧
      countBackoffWaits evs = 3 ∧ sendAttempts evs = [0, 1, 2, 3] ∧
      backoffSeconds evs = [ws 0, ws 1, ws 2]) ∧
    (∃ msg evs, add_alias token name aliasFor
        (fun i => AttemptResponse.throttled (ws i)) =
        some (CallOutcome.retryExhausted msg, evs) ∧
      countBackoffWaits evs = 3 ∧ sendAttempts evs = [0, 1, 2, 3] ∧
      backoffSeconds evs = [ws 0, ws 1, ws 2]) :=
  ⟨⟨_, rfl, rfl, rfl, rfl⟩, ⟨_, rfl, rfl, rfl, rfl⟩,
    ⟨_, _, rfl, rfl, rfl, rfl⟩, ⟨_, _, rfl, rfl, rfl, rfl⟩⟩

/-- C5: when the archive directory existence check reports `false` or fails,
`actions::import` hits a `panic!` — a process-terminating crash carrying the
formatted message — instead of returning a recoverable error value. -/
theorem import_missing_directory_panics :
    importRun (fun _ => false) "emoji-dir" (Except.ok false) [] =
      ImportResult.panicked "\"emoji-dir\" is not a directory" ∧
    importRun (fun _ => false) "emoji-dir" (Except.error "permission denied") [] =
      ImportResult.panicked
        "Failed to check existence of directory \"emoji-dir\": permission denied" :=
  ⟨rfl, rfl⟩

/-- C6 counterexample: a stream whose second chunk item fails still makes
`download` return success with a flushed file, but the file holds only the
first chunk — not the complete byte content of the stream. -/
theorem download_truncation_counterexample :
    download [Except.ok [1], Except.error "chunk failed", Except.ok [2]] =
      { contents := [1], flushed := true } ∧
    allChunkBytes [Except.ok [1], Except.error "chunk failed", Except.ok [2]] = [1, 2] ∧
    ((download [Except.ok [1], Except.error "chunk failed", Except.ok [2]]).contents ==
        allChunkBytes [Except.ok [1], Except.error "chunk failed", Except.ok [2]]) = false :=
  ⟨rfl, rfl, rfl⟩

/-- C6 (amended): whenever `download` returns success the file has been
flushed, and it contains exactly the bytes of the chunks received before the
first failed chunk item; a chunk failure mid-stream silently ends the copy
loop, so the flushed content can be a strict prefix of the stream's bytes
while success is still reported. -/
theorem download_flushed_written_content (chunks : List (Except String (List Nat))) :
    (download chunks).flushed = true ∧ (download chunks).contents = writtenBytes chunks := by
  have h := downloadLoop_contents chunks { contents := [], flushed := false }
  exact ⟨rfl, by simp [download, h]⟩

/-- C7: an archive entry that the import loop reaches (all earlier scan items
parsed successfully) and whose name is reserved gets a conflict report, and
no upload request is made for it (the loop makes no upload calls at all). -/
theorem reserved_entry_reported_not_uploaded
    (reserved : String → Bool) (entries : List (Except String EmojiFileEntry))
    (k : Nat) (ef : EmojiFileEntry)
    (hres : reserved ef.name = true)
    (hk : entries[k]? = some (Except.ok ef))
    (hpre : ∀ j, j < k → ∃ e, entries[j]? = some (Except.ok e)) :
    ImportEvent.conflictReported ef.name ∈ importLoop reserved entries ∧
    countUploadEvents (importLoop reserved entries) = 0 :=
  ⟨importLoop_conflict_mem reserved ef hres entries k hk hpre,
    importLoop_no_upload reserved entries⟩

/-- Witness for C7 at a concrete input: the reserved entry `seal` in a
one-entry archive. -/
theorem reserved_entry_reported_not_uploaded_witness :
    ImportEvent.conflictReported "seal" ∈
        importLoop (fun n => n == "seal") [Except.ok { name := "seal" }] ∧
    countUploadEvents (importLoop (fun n => n == "seal") [Except.ok { name := "seal" }]) = 0 :=
  reserved_entry_reported_not_uploaded (fun n => n == "seal")
    [Except.ok { name := "seal" }] 0 { name := "seal" } rfl rfl
    (fun j hj => absurd hj (Nat.not_lt_zero j))

/-- C9: if the archive scan yields an error item after a prefix of
successfully parsed entries, the import loop output equals the output on the
prefix alone — the items after the error are never examined (the output does
not depend on them) and the error item is not reported (the output does not
depend on its message either). -/
theorem scan_error_stops_consumption (reserved : String → Bool)
    (pre rest : List (Except String EmojiFileEntry)) (e : String)
    (hpre : ∀ x ∈ pre, ∃ ef, x = Except.ok ef) :
    importLoop reserved (pre ++ Except.error e :: rest) = importLoop reserved pre := by
  induction pre with
  | nil => rfl
  | cons x pre ih =>
    obtain ⟨ef, hef⟩ := hpre x (List.mem_cons_self _ _)
    subst hef
    have ih' := ih (fun x' hx' => hpre x' (List.mem_cons_of_mem _ hx'))
    cases hcase : reserved ef.name with
    | false => simpa [importLoop, hcase] using ih'
    | true => simp [importLoop, hcase, ih']

/-- Witness for C9 at a concrete input: one good entry, then a scan error,
then a further entry that is never reached. -/
theorem scan_error_stops_consumption_witness :
    importLoop (fun n => n == "seal")
        ([Except.ok { name := "seal" }] ++
          Except.error "scan failed" :: [Except.ok { name := "b" }]) =
      importLoop (fun n => n == "seal") [Except.ok { name := "seal" }] :=
  scan_error_stops_consumption (fun n => n == "seal")
    [Except.ok { name := "seal" }] [Except.ok { name := "b" }] "scan failed"
    (fun x hx => ⟨{ name := "seal" }, by simpa using hx⟩)

/-- Traces produced by the upload retry loop itself contain no cool-down
sleep: that sleep happens only after the loop, in `upload`. -/
theorem uploadGo_cooldown_free (token name filename : String)
    (readFile : Nat → Except String (List Nat)) (responses : Nat → AttemptResponse) :
    ∀ (fuel attempt tryCount : Nat) (res : LoopExit) (evs : List Event),
      uploadGo token name filename readFile responses fuel attempt tryCount = some (res, evs) →
      countCooldown evs = 0 := by
  intro fuel
  induction fuel with
  | zero => intro a t res evs h; simp [uploadGo] at h
  | succ fuel ih =>
    intro a t res evs h
    cases hrf : readFile a with
    | error e =>
      simp only [uploadGo, hrf] at h
      simp at h
      obtain ⟨h1, h2⟩ := h
      subst h2
      rfl
    | ok bytes =>
      cases hresp : responses a with
      | sendError msg =>
        simp only [uploadGo, hrf, hresp] at h
        simp at h
        obtain ⟨h1, h2⟩ := h
        subst h2
        rfl
      | body r =>
        simp only [uploadGo, hrf, hresp] at h
        simp at h
        obtain ⟨h1, h2⟩ := h
        subst h2
        rfl
      | throttled w =>
        simp only [uploadGo, hrf, hresp] at h
        cases ht : (t == 3) with
        | true =>
          simp [ht] at h
          obtain ⟨h1, h2⟩ := h
          subst h2
          rfl
        | false =>
          simp only [ht, Bool.false_eq_true, if_false] at h
          cases hrec : uploadGo token name filename readFile responses fuel (a + 1) (t + 1) with
          | none => rw [hrec] at h; simp at h
          | some p =>
            obtain ⟨res', evs'⟩ := p
            rw [hrec] at h
            simp at h
            obtain ⟨h1, h2⟩ := h
            subst h2
            have hc := ih (a + 1) (t + 1) res' evs' hrec
            simp [countCooldown, List.countP_append, List.countP_cons] at hc ⊢
            exact hc

/-- Traces produced by the alias retry loop itself contain no cool-down
sleep: that sleep happens only after the loop, in `add_alias`. -/
theorem addAliasGo_cooldown_free (token name aliasFor : String)
    (responses : Nat → AttemptResponse) :
    ∀ (fuel attempt tryCount : Nat) (res : LoopExit) (evs : List Event),
      addAliasGo token name aliasFor responses fuel attempt tryCount = some (res, evs) →
      countCooldown evs = 0 := by
  intro fuel
  induction fuel with
  | zero => intro a t res evs h; simp [addAliasGo] at h
  | succ fuel ih =>
    intro a t res evs h
    cases hresp : responses a with
    | sendError msg =>
      simp only [addAliasGo, hresp] at h
      simp at h
      obtain ⟨h1, h2⟩ := h
      subst h2
      rfl
    | body r =>
      simp only [addAliasGo, hresp] at h
      simp at h
      obtain ⟨h1, h2⟩ := h
      subst h2
      rfl
    | throttled w =>
      simp only [addAliasGo, hresp] at h
      cases ht : (t == 3) with
      | true =>
        simp [ht] at h
        obtain ⟨h1, h2⟩ := h
        subst h2
        rfl
      | false =>
        simp only [ht, Bool.false_eq_true, if_false] at h
        cases hrec : addAliasGo token name aliasFor responses fuel (a + 1) (t + 1) with
        | none => rw [hrec] at h; simp at h
        | some p =>
          obtain ⟨res', evs'⟩ := p
          rw [hrec] at h
          simp at h
          obtain ⟨h1, h2⟩ := h
          subst h2
          have hc := ih (a + 1) (t + 1) res' evs' hrec
          simp [countCooldown, List.countP_append, List.countP_cons] at hc ⊢
          exact hc

/-- Appending the single cool-down sleep adds exactly one to the cool-down
count of a trace. -/
theorem countCooldown_append_sleep (evs : List Event) :
    countCooldown (evs ++ [Event.cooldownSleep]) = countCooldown evs + 1 := by
  simp [countCooldown, List.countP_append, List.countP_cons]

/-- C4 counterexample: with every response throttled, the call resolves as
`retryExhausted`, yet its trace contains exactly one cool-down sleep — the
fixed 1-second sleep sits after the loop unconditionally, so it does occur on
the retry-exhausted path. -/
theorem cooldown_on_exhausted_counterexample :
    Option.map (fun p => (CallOutcome.isRetryExhausted p.1, countCooldown p.2))
        (upload "tok" "emoji" "emoji.png" (fun _ => Except.ok [7])
          (fun _ => AttemptResponse.throttled 2)) = some (true, 1) ∧
    Option.map (fun p => (CallOutcome.isRetryExhausted p.1, countCooldown p.2))
        (add_alias "tok" "emoji" "target" (fun _ => AttemptResponse.throttled 2)) =
      some (true, 1) :=
  ⟨rfl, rfl⟩

/-- C4 (amended): the fixed 1-second cool-down occurs exactly once after the
call resolves, on the success, OperationRejected and RetryExhausted paths
alike; it is skipped only when the call aborts early by propagating a
transport or body-parse error through `?`. -/
theorem cooldown_after_each_resolved_call (token name filename aliasFor : String)
    (readFile : Nat → Except String (List Nat)) (responses : Nat → AttemptResponse)
    (out : CallOutcome) (evs : List Event) :
    (upload token name filename readFile responses = some (out, evs) →
      countCooldown evs = expectedCooldowns out) ∧
    (add_alias token name aliasFor responses = some (out, evs) →
      countCooldown evs = expectedCooldowns out) := by
  constructor
  · intro h
    cases hgo : uploadGo token name filename readFile responses 4 0 0 with
    | none => simp [upload, hgo] at h
    | some p =>
      obtain ⟨res, evs'⟩ := p
      have hfree := uploadGo_cooldown_free token name filename readFile responses 4 0 0 res evs' hgo
      cases res with
      | propagated msg =>
        simp only [upload, hgo] at h
        simp at h
        obtain ⟨h1, h2⟩ := h
        subst h1
        subst h2
        simpa [expectedCooldowns] using hfree
      | exhausted msg =>
        simp only [upload, hgo] at h
        simp at h
        obtain ⟨h1, h2⟩ := h
        subst h1
        subst h2
        rw [countCooldown_append_sleep, hfree]
        rfl
      | parsed r =>
        cases herr : r.error with
        | none =>
          simp only [upload, hgo, herr] at h
          simp at h
          obtain ⟨h1, h2⟩ := h
          subst h1
          subst h2
          rw [countCooldown_append_sleep, hfree]
          rfl
        | some m =>
          simp only [upload, hgo, herr] at h
          simp at h
          obtain ⟨h1, h2⟩ := h
          subst h1
          subst h2
          rw [countCooldown_append_sleep, hfree]
          rfl
  · intro h
    cases hgo : addAliasGo token name aliasFor responses 4 0 0 with
    | none => simp [add_alias, hgo] at h
    | some p =>
      obtain ⟨res, evs'⟩ := p
      have hfree := addAliasGo_cooldown_free token name aliasFor responses 4 0 0 res evs' hgo
      cases res with
      | propagated msg =>
        simp only [add_alias, hgo] at h
        simp at h
        obtain ⟨h1, h2⟩ := h
        subst h1
        subst h2
        simpa [expectedCooldowns] using hfree
      | exhausted msg =>
        simp only [add_alias, hgo] at h
        simp at h
        obtain ⟨h1, h2⟩ := h
        subst h1
        subst h2
        rw [countCooldown_append_sleep, hfree]
        rfl
      | parsed r =>
        cases herr : r.error with
        | none =>
          simp only [add_alias, hgo, herr] at h
          simp at h
          obtain ⟨h1, h2⟩ := h
          subst h1
          subst h2
          rw [countCooldown_append_sleep, hfree]
          rfl
        | some m =>
          simp only [add_alias, hgo, herr] at h
          simp at h
          obtain ⟨h1, h2⟩ := h
          subst h1
          subst h2
          rw [countCooldown_append_sleep, hfree]
          rfl

/-- Witness for C4 (amended) at concrete inputs: an immediately successful
upload and an immediately successful alias call each sleep the cool-down
exactly once. -/
theorem cooldown_after_each_resolved_call_witness :
    countCooldown [Event.fileRead 0 [7],
        Event.uploadSend 0 { mode := "data", name := "n", imageBytes := [7], imageFileName := "f", token := "t" },
        Event.cooldownSleep] = expectedCooldowns CallOutcome.success ∧
    countCooldown [Event.aliasSend 0 { mode := "alias", name := "n", aliasFor := "a", token := "t" },
        Event.cooldownSleep] = expectedCooldowns CallOutcome.success :=
  ⟨(cooldown_after_each_resolved_call "t" "n" "f" "a" (fun _ => Except.ok [7])
      (fun _ => AttemptResponse.body { error := none, ok := true }) CallOutcome.success
      [Event.fileRead 0 [7],
        Event.uploadSend 0 { mode := "data", name := "n", imageBytes := [7], imageFileName := "f", token := "t" },
        Event.cooldownSleep]).1 rfl,
    (cooldown_after_each_resolved_call "t" "n" "f" "a" (fun _ => Except.ok [7])
      (fun _ => AttemptResponse.body { error := none, ok := true }) CallOutcome.success
      [Event.aliasSend 0 { mode := "alias", name := "n", aliasFor := "a", token := "t" },
        Event.cooldownSleep]).2 rfl⟩

/-- Every upload request event in a retry-loop trace carries a form built
from the bytes `fs::read` returned on that same attempt (recorded by a
same-attempt file-read event), and the trace holds exactly one file read per
request sent. -/
theorem uploadGo_fresh_forms (token name filename : String)
    (readFile : Nat → Except String (List Nat)) (responses : Nat → AttemptResponse) :
    ∀ (fuel attempt tryCount : Nat) (res : LoopExit) (evs : List Event),
      uploadGo token name filename readFile responses fuel attempt tryCount = some (res, evs) →
      (∀ i f, Event.uploadSend i f ∈ evs →
          ∃ b, readFile i = Except.ok b ∧
            f = { mode := "data", name := name, imageBytes := b,
                  imageFileName := filename, token := token } ∧
            Event.fileRead i b ∈ evs) ∧
      countFileReads evs = countUploadSends evs := by
  intro fuel
  induction fuel with
  | zero => intro a t res evs h; simp [uploadGo] at h
  | succ fuel ih =>
    intro a t res evs h
    cases hrf : readFile a with
    | error e =>
      simp only [uploadGo, hrf] at h
      simp at h
      obtain ⟨h1, h2⟩ := h
      subst h2
      exact ⟨fun i f hf => absurd hf (List.not_mem_nil _), rfl⟩
    | ok bytes =>
      cases hresp : responses a with
      | sendError msg =>
        simp only [uploadGo, hrf, hresp] at h
        simp at h
        obtain ⟨h1, h2⟩ := h
        subst h2
        refine ⟨?_, rfl⟩
        intro i f hf
        simp at hf
        obtain ⟨hi, hfm⟩ := hf
        subst hi
        subst hfm
        exact ⟨bytes, hrf, rfl, by simp⟩
      | body r =>
        simp only [uploadGo, hrf, hresp] at h
        simp at h
        obtain ⟨h1, h2⟩ := h
        subst h2
        refine ⟨?_, rfl⟩
        intro i f hf
        simp at hf
        obtain ⟨hi, hfm⟩ := hf
        subst hi
        subst hfm
        exact ⟨bytes, hrf, rfl, by simp⟩
      | throttled w =>
        simp only [uploadGo, hrf, hresp] at h
        cases ht : (t == 3) with
        | true =>
          simp [ht] at h
          obtain ⟨h1, h2⟩ := h
          subst h2
          refine ⟨?_, rfl⟩
          intro i f hf
          simp at hf
          obtain ⟨hi, hfm⟩ := hf
          subst hi
          subst hfm
          exact ⟨bytes, hrf, rfl, by simp⟩
        | false =>
          simp only [ht, Bool.false_eq_true, if_false] at h
          cases hrec : uploadGo token name filename readFile responses fuel (a + 1) (t + 1) with
          | none => rw [hrec] at h; simp at h
          | some p =>
            obtain ⟨res', evs'⟩ := p
            rw [hrec] at h
            simp at h
            obtain ⟨h1, h2⟩ := h
            subst h2
            obtain ⟨ihm, ihc⟩ := ih (a + 1) (t + 1) res' evs' hrec
            constructor
            · intro i f hf
              simp [List.mem_append, List.mem_cons] at hf
              rcases hf with ⟨hi, hfm⟩ | hf
              · subst hi
                subst hfm
                exact ⟨bytes, hrf, rfl, by simp⟩
              · obtain ⟨b, hb, hfm, hmem⟩ := ihm i f hf
                exact ⟨b, hb, hfm, by simp [hmem]⟩
            · simp only [countFileReads, countUploadSends, List.countP_append,
                List.countP_cons, List.countP_nil] at ihc ⊢
              simp at ihc ⊢
              omega

/-- Every alias request event in an alias retry-loop trace carries the form
built from the original `name` and `alias_for` strings. -/
theorem addAliasGo_forms (token name aliasFor : String)
    (responses : Nat → AttemptResponse) :
    ∀ (fuel attempt tryCount : Nat) (res : LoopExit) (evs : List Event),
      addAliasGo token name aliasFor responses fuel attempt tryCount = some (res, evs) →
      ∀ i g, Event.aliasSend i g ∈ evs →
        g = { mode := "alias", name := name, aliasFor := aliasFor, token := token } := by
  intro fuel
  induction fuel with
  | zero => intro a t res evs h; simp [addAliasGo] at h
  | succ fuel ih =>
    intro a t res evs h
    cases hresp : responses a with
    | sendError msg =>
      simp only [addAliasGo, hresp] at h
      simp at h
      obtain ⟨h1, h2⟩ := h
      subst h2
      intro i g hg
      simp at hg
      exact hg.2
    | body r =>
      simp only [addAliasGo, hresp] at h
      simp at h
      obtain ⟨h1, h2⟩ := h
      subst h2
      intro i g hg
      simp at hg
      exact hg.2
    | throttled w =>
      simp only [addAliasGo, hresp] at h
      cases ht : (t == 3) with
      | true =>
        simp [ht] at h
        obtain ⟨h1, h2⟩ := h
        subst h2
        intro i g hg
        simp at hg
        exact hg.2
      | false =>
        simp only [ht, Bool.false_eq_true, if_false] at h
        cases hrec : addAliasGo token name aliasFor responses fuel (a + 1) (t + 1) with
        | none => rw [hrec] at h; simp at h
        | some p =>
          obtain ⟨res', evs'⟩ := p
          rw [hrec] at h
          simp at h
          obtain ⟨h1, h2⟩ := h
          subst h2
          intro i g hg
          simp [List.mem_append, List.mem_cons] at hg
          rcases hg with ⟨hi, hgm⟩ | hg
          · exact hgm
          · exact ih (a + 1) (t + 1) res' evs' hrec i g hg

/-- The whole-call trace of `upload` is the loop trace, possibly followed by
the single cool-down sleep. -/
theorem upload_trace_shape (token name filename : String)
    (readFile : Nat → Except String (List Nat)) (responses : Nat → AttemptResponse)
    (out : CallOutcome) (evs : List Event)
    (h : upload token name filename readFile responses = some (out, evs)) :
    ∃ res evs', uploadGo token name filename readFile responses 4 0 0 = some (res, evs') ∧
      (evs = evs' ∨ evs = evs' ++ [Event.cooldownSleep]) := by
  cases hgo : uploadGo token name filename readFile responses 4 0 0 with
  | none => simp [upload, hgo] at h
  | some p =>
    obtain ⟨res, evs'⟩ := p
    refine ⟨res, evs', rfl, ?_⟩
    cases res with
    | propagated msg =>
      simp only [upload, hgo] at h
      simp at h
      exact Or.inl h.2.symm
    | exhausted msg =>
      simp only [upload, hgo] at h
      simp at h
      exact Or.inr h.2.symm
    | parsed r =>
      cases herr : r.error with
      | none =>
        simp only [upload, hgo, herr] at h
        simp at h
        exact Or.inr h.2.symm
      | some m =>
        simp only [upload, hgo, herr] at h
        simp at h
        exact Or.inr h.2.symm

/-- The whole-call trace of `add_alias` is the loop trace, possibly followed
by the single cool-down sleep. -/
theorem add_alias_trace_shape (token name aliasFor : String)
    (responses : Nat → AttemptResponse)
    (out : CallOutcome) (evs : List Event)
    (h : add_alias token name aliasFor responses = some (out, evs)) :
    ∃ res evs', addAliasGo token name aliasFor responses 4 0 0 = some (res, evs') ∧
      (evs = evs' ∨ evs = evs' ++ [Event.cooldownSleep]) := by
  cases hgo : addAliasGo token name aliasFor responses 4 0 0 with
  | none => simp [add_alias, hgo] at h
  | some p =>
    obtain ⟨res, evs'⟩ := p
    refine ⟨res, evs', rfl, ?_⟩
    cases res with
    | propagated msg =>
      simp only [add_alias, hgo] at h
      simp at h
      exact Or.inl h.2.symm
    | exhausted msg =>
      simp only [add_alias, hgo] at h
      simp at h
      exact Or.inr h.2.symm
    | parsed r =>
      cases herr : r.error with
      | none =>
        simp only [add_alias, hgo, herr] at h
        simp at h
        exact Or.inr h.2.symm
      | some m =>
        simp only [add_alias, hgo, herr] at h
        simp at h
        exact Or.inr h.2.symm

/-- C8: in any completed rate-limited call, every request attempt carried a
form freshly constructed for that attempt — for `upload`, the image bytes of
the form sent on attempt `i` are exactly what `fs::read` returned on attempt
`i` (witnessed by a same-attempt file-read event), and the trace holds one
file read per request sent; for `add_alias`, every attempt's form is rebuilt
from the original name and alias-target strings. -/
theorem fresh_request_body_each_attempt (token name filename aliasFor : String)
    (readFile : Nat → Except String (List Nat))
    (responses responsesB : Nat → AttemptResponse)
    (out outB : CallOutcome) (evs evsB : List Event)
    (hu : upload token name filename readFile responses = some (out, evs))
    (ha : add_alias token name aliasFor responsesB = some (outB, evsB)) :
    (∀ i f, Event.uploadSend i f ∈ evs →
        ∃ b, readFile i = Except.ok b ∧
          f = { mode := "data", name := name, imageBytes := b,
                imageFileName := filename, token := token } ∧
          Event.fileRead i b ∈ evs) ∧
    countFileReads evs = countUploadSends evs ∧
    (∀ i g, Event.aliasSend i g ∈ evsB →
        g = { mode := "alias", name := name, aliasFor := aliasFor, token := token }) := by
  obtain ⟨res, evs', hgo, hsh⟩ :=
    upload_trace_shape token name filename readFile responses out evs hu
  obtain ⟨fresh, hcount⟩ :=
    uploadGo_fresh_forms token name filename readFile responses 4 0 0 res evs' hgo
  obtain ⟨resB, evsB', hgoB, hshB⟩ :=
    add_alias_trace_shape token name aliasFor responsesB outB evsB ha
  have freshB := addAliasGo_forms token name aliasFor responsesB 4 0 0 resB evsB' hgoB
  refine ⟨?_, ?_, ?_⟩
  · intro i f hf
    cases hsh with
    | inl hsame =>
      subst hsame
      exact fresh i f hf
    | inr happ =>
      subst happ
      simp [List.mem_append] at hf
      obtain ⟨b, hb, hfm, hmem⟩ := fresh i f hf
      exact ⟨b, hb, hfm, by simp [hmem]⟩
  · cases hsh with
    | inl hsame => subst hsame; exact hcount
    | inr happ =>
      subst happ
      simp only [countFileReads, countUploadSends, List.countP_append,
        List.countP_cons, List.countP_nil] at hcount ⊢
      simp at hcount ⊢
      omega
  · intro i g hg
    cases hshB with
    | inl hsame =>
      subst hsame
      exact freshB i g hg
    | inr happ =>
      subst happ
      simp [List.mem_append] at hg
      exact freshB i g hg

/-- Witness for C8 at concrete inputs: calls that succeed on the first
attempt, with the trace literals they produce. -/
theorem fresh_request_body_each_attempt_witness :
    countFileReads [Event.fileRead 0 [7],
        Event.uploadSend 0 { mode := "data", name := "n", imageBytes := [7], imageFileName := "f", token := "t" },
        Event.cooldownSleep] =
      countUploadSends [Event.fileRead 0 [7],
        Event.uploadSend 0 { mode := "data", name := "n", imageBytes := [7], imageFileName := "f", token := "t" },
        Event.cooldownSleep] :=
  (fresh_request_body_each_attempt "t" "n" "f" "a" (fun _ => Except.ok [7])
    (fun _ => AttemptResponse.body { error := none, ok := true })
    (fun _ => AttemptResponse.body { error := none, ok := true })
    CallOutcome.success CallOutcome.success
    [Event.fileRead 0 [7],
      Event.uploadSend 0 { mode := "data", name := "n", imageBytes := [7], imageFileName := "f", token := "t" },
      Event.cooldownSleep]
    [Event.aliasSend 0 { mode := "alias", name := "n", aliasFor := "a", token := "t" },
      Event.cooldownSleep]
    rfl rfl).2.1

/-- The upload retry loop never inspects the `ok` flag of a parsed body:
running it against responses with every body's `ok` flag overwritten gives
the same trace, with only the carried body's flag changed in the exit. -/
theorem uploadGo_withOk (token name filename : String)
    (readFile : Nat → Except String (List Nat)) (responses : Nat → AttemptResponse)
    (b : Bool) :
    ∀ (fuel attempt tryCount : Nat),
      uploadGo token name filename readFile (fun i => AttemptResponse.withOk b (responses i))
          fuel attempt tryCount =
        Option.map (fun p => (LoopExit.withOk b p.1, p.2))
          (uploadGo token name filename readFile responses fuel attempt tryCount) := by
  intro fuel
  induction fuel with
  | zero => intro a t; rfl
  | succ fuel ih =>
    intro a t
    simp only [uploadGo]
    cases hrf : readFile a with
    | error e => rfl
    | ok bytes =>
      cases hresp : responses a with
      | sendError msg => simp [hresp, AttemptResponse.withOk, LoopExit.withOk]
      | body r => simp [hresp, AttemptResponse.withOk, LoopExit.withOk]
      | throttled w =>
        have hw : AttemptResponse.withOk b (responses a) = AttemptResponse.throttled w := by
          rw [hresp]
          rfl
        cases ht : (t == 3) with
        | true => simp [hresp, ht, AttemptResponse.withOk, LoopExit.withOk]
        | false =>
          simp only [hw, hresp, ht, Bool.false_eq_true, if_false, ih]
          cases hrec : uploadGo token name filename readFile responses fuel (a + 1) (t + 1) with
          | none => rfl
          | some p => rfl

/-- The alias retry loop never inspects the `ok` flag of a parsed body. -/
theorem addAliasGo_withOk (token name aliasFor : String)
    (responses : Nat → AttemptResponse) (b : Bool) :
    ∀ (fuel attempt tryCount : Nat),
      addAliasGo token name aliasFor (fun i => AttemptResponse.withOk b (responses i))
          fuel attempt tryCount =
        Option.map (fun p => (LoopExit.withOk b p.1, p.2))
          (addAliasGo token name aliasFor responses fuel attempt tryCount) := by
  intro fuel
  induction fuel with
  | zero => intro a t; rfl
  | succ fuel ih =>
    intro a t
    simp only [addAliasGo]
    cases hresp : responses a with
    | sendError msg => simp [hresp, AttemptResponse.withOk, LoopExit.withOk]
    | body r => simp [hresp, AttemptResponse.withOk, LoopExit.withOk]
    | throttled w =>
      have hw : AttemptResponse.withOk b (responses a) = AttemptResponse.throttled w := by
        rw [hresp]
        rfl
      cases ht : (t == 3) with
      | true => simp [hresp, ht, AttemptResponse.withOk, LoopExit.withOk]
      | false =>
        simp only [hw, hresp, ht, Bool.false_eq_true, if_false, ih]
        cases hrec : addAliasGo token name aliasFor responses fuel (a + 1) (t + 1) with
        | none => rfl
        | some p => rfl

/-- `upload` is invariant under overwriting every body's `ok` flag. -/
theorem upload_withOk (token name filename : String)
    (readFile : Nat → Except String (List Nat)) (responses : Nat → AttemptResponse)
    (b : Bool) :
    upload token name filename readFile (fun i => AttemptResponse.withOk b (responses i)) =
      upload token name filename readFile responses := by
  simp only [upload, uploadGo_withOk]
  cases uploadGo token name filename readFile responses 4 0 0 with
  | none => rfl
  | some p =>
    obtain ⟨res, evs⟩ := p
    cases res with
    | propagated msg => rfl
    | exhausted msg => rfl
    | parsed r =>
      obtain ⟨err, okf⟩ := r
      cases err with
      | none => rfl
      | some m => rfl

/-- `add_alias` is invariant under overwriting every body's `ok` flag. -/
theorem add_alias_withOk (token name aliasFor : String)
    (responses : Nat → AttemptResponse) (b : Bool) :
    add_alias token name aliasFor (fun i => AttemptResponse.withOk b (responses i)) =
      add_alias token name aliasFor responses := by
  simp only [add_alias, addAliasGo_withOk]
  cases addAliasGo token name aliasFor responses 4 0 0 with
  | none => rfl
  | some p =>
    obtain ⟨res, evs⟩ := p
    cases res with
    | propagated msg => rfl
    | exhausted msg => rfl
    | parsed r =>
      obtain ⟨err, okf⟩ := r
      cases err with
      | none => rfl
      | some m => rfl

/-- C10: the upload and add-alias calls decide success solely by the absence
of the `error` field of the parsed body and never inspect the `ok` flag —
overwriting every response body's `ok` flag with any value leaves the whole
call result (outcome and trace) unchanged, and a first response whose body
has no `error` string is a success regardless of its `ok` flag (in
particular for `ok = false`). -/
theorem ok_flag_never_inspected (token name filename aliasFor : String)
    (readFile : Nat → Except String (List Nat)) (responses : Nat → AttemptResponse)
    (b okFlag : Bool) (bs : Nat → List Nat) :
    upload token name filename readFile (fun i => AttemptResponse.withOk b (responses i)) =
      upload token name filename readFile responses ∧
    add_alias token name aliasFor (fun i => AttemptResponse.withOk b (responses i)) =
      add_alias token name aliasFor responses ∧
    (∃ evs, upload token name filename (fun i => Except.ok (bs i))
        (fun _ => AttemptResponse.body { error := none, ok := okFlag }) =
        some (CallOutcome.success, evs)) ∧
    (∃ evs, add_alias token name aliasFor
        (fun _ => AttemptResponse.body { error := none, ok := okFlag }) =
        some (CallOutcome.success, evs)) :=
  ⟨upload_withOk token name filename readFile responses b,
    add_alias_withOk token name aliasFor responses b,
    ⟨_, rfl⟩, ⟨_, rfl⟩⟩

end SlackEmojiExporter
